import Mathlib

/-!
Shallow embedding of gitric/api.py.

The repository is a fabric-based deployment helper with two parts:

* the git seeding protocol: git_is_dirty, git_init, git_seed, together
  with the process-wide override flags allow_dirty and force_push kept
  in the fabric env dictionary;
* the blue/green switcher: init_bluegreen and swap_bluegreen, which
  manage the root/blue, root/green slot directories and the root/live,
  root/next symlinks, caching resolved paths in the fabric env.

Shell commands issued through fabric (local, run, sudo, exists) are
modelled by an explicit action trace; the outputs and exit statuses of
the external git commands come from a GitWorld record; the fabric env
dictionary is an explicit record threaded through the functions.  The
remote filesystem touched by the blue/green switcher is modelled by an
FS record: a set of existing directories plus a map from symlink path
to symlink target.  readlink -f is modelled as a single lookup step
(slot directories created by mkdir -p are real directories, so a live
or next symlink resolves in one step); fabric exists is modelled as
presence of the path as a directory or as a symlink.
-/

/-- Decidable equality for Except results, used to evaluate the
    operations on concrete inputs. -/
instance {ε α : Type} [DecidableEq ε] [DecidableEq α] : DecidableEq (Except ε α)
  | Except.ok a, Except.ok b =>
    if h : a = b then isTrue (by rw [h]) else isFalse (by intro he; cases he; exact h rfl)
  | Except.ok _, Except.error _ => isFalse (by intro he; cases he)
  | Except.error _, Except.ok _ => isFalse (by intro he; cases he)
  | Except.error e, Except.error f =>
    if h : e = f then isTrue (by rw [h]) else isFalse (by intro he; cases he; exact h rfl)

/-- Python truthiness of an optional string: None and the empty string are falsy. -/
def pyTruthy : Option String → Bool
  | none => false
  | some s => !(s == "")

/-- Python expression a or b, for a an optional string and b a string:
    returns the contents of a when a is truthy, else b. -/
def pyOrD : Option String → String → String
  | none, b => b
  | some s, b => if s == "" then b else s

/-- Worker for the substring test: does p occur as a contiguous block inside the list. -/
def strContainsGo (p : List Char) : List Char → Bool
  | [] => p.isEmpty
  | c :: cs => p.isPrefixOf (c :: cs) || strContainsGo p cs

/-- Substring test, the Python in operator on str: pat occurs inside s. -/
def strContains (s pat : String) : Bool :=
  strContainsGo pat.data s.data

/-- Worker for basename: chars of the reversed path up to the first slash. -/
def basenameAux : List Char → List Char
  | [] => []
  | c :: cs => if c == '/' then [] else c :: basenameAux cs

/-- os.path.basename: everything after the last slash. -/
def basename (p : String) : String :=
  String.mk (basenameAux p.data.reverse).reverse

/-- Whether the last character of a is a slash. -/
def endsWithSlash (a : String) : Bool := a.data.getLast? == some '/'

/-- Whether the first character of b is a slash. -/
def startsWithSlash (b : String) : Bool := b.data.head? == some '/'

/-- os.path.join of two components: b if b is absolute, a + b when a is
    empty or already ends in a slash, else a + slash + b. -/
def pathJoin (a b : String) : String :=
  if startsWithSlash b then b
  else if a == "" then b
  else if endsWithSlash a then a ++ b
  else a ++ "/" ++ b

/-- One traced invocation of the command layer.  local commands, remote
    commands (fabric run or sudo, per the use_sudo flag of the _do
    helper), remote existence checks (fabric exists), the push command
    (issued through local inside warn_only) and the branch containment
    listing (local, at the call site checking git branch --contains)
    are tagged by constructor so that claims about which commands an
    operation issues can be stated directly on the trace. -/
inductive Act where
  | localCmd (cmd : String)
  | remoteCmd (useSudo : Bool) (sudoUser : Option String) (cmd : String)
  | existsCheck (useSudo : Bool) (path : String)
  | pushCmd (cmd : String)
  | branchCheckCmd (cmd : String)
  deriving DecidableEq

/-- Whether the action runs on the remote host through the remote executor. -/
def Act.isRemote : Act → Bool
  | .remoteCmd _ _ _ => true
  | .existsCheck _ _ => true
  | _ => false

/-- Whether the action is the git push. -/
def Act.isPush : Act → Bool
  | .pushCmd _ => true
  | _ => false

/-- Whether the action is the branch containment listing. -/
def Act.isBranchCheck : Act → Bool
  | .branchCheckCmd _ => true
  | _ => false

/-- The fabric env fields read by the seeding code.  The two gitric
    flags model membership of the keys gitric_allow_dirty and
    gitric_force_push in env (set for the rest of the process by the
    allow_dirty and force_push tasks). -/
structure FabricEnv where
  gitric_allow_dirty : Bool
  gitric_force_push : Bool
  user : String
  host : String
  port : String
  deriving DecidableEq

/-- Outputs and exit statuses of the external git commands: the output
    of git status --porcelain as a function of the untracked-files
    flag, the current branch name, the HEAD revision, the output of
    git branch --contains per commit, whether repo_path/.git exists on
    the remote, and whether the push exits with a failure status. -/
structure GitWorld where
  statusPorcelain : Bool → String
  currentBranch : String
  headRev : String
  branchContains : String → String
  remoteRepoExists : Bool
  pushFails : Bool

/-- The keyword arguments of git_seed. -/
structure SeedArgs where
  repo_path : String
  commit : Option String
  remote_branch : Option String
  ignore_untracked_files : Bool
  use_sudo : Bool
  sudo_user : Option String
  remote_git_user : Option String
  deriving DecidableEq

/-- Result of a seeding operation: normal return or fabric abort with a message. -/
inductive SeedResult where
  | ok
  | aborted (msg : String)
  deriving DecidableEq

/-- The abort message of the dirty working copy check in git_seed. -/
def dirtyAbortMsg : String :=
  "Working copy is dirty. This check can be overridden by\nimporting gitric.api.allow_dirty and adding allow_dirty to your call."

/-- The abort message of the branch containment check in git_seed. -/
def notInBranchMsg (commit branch : String) : String :=
  "Can not push: commit " ++ commit ++ " is not in branch " ++ branch

/-- The abort message of the failed push in git_seed. -/
def nonFastForwardMsg (commit : String) : String :=
  commit ++ " is a non-fast-forward\npush. The seed will abort so you don\x27t lose information. If you are doing this\nintentionally import gitric.api.force_push and add it to your call."

/-- git_is_dirty from api.py: returns False at once when the
    gitric_allow_dirty key is in env, otherwise runs
    git status [--untracked-files=no] --porcelain locally and reports
    whether its captured output is non-empty.  Returns the value
    together with the trace of commands issued. -/
def git_is_dirty (e : FabricEnv) (w : GitWorld) (ignore_untracked_files : Bool) :
    Bool × List Act :=
  if e.gitric_allow_dirty then
    (false, [])
  else
    let uf := if ignore_untracked_files then "--untracked-files=no" else ""
    (!(w.statusPorcelain ignore_untracked_files == ""),
     [Act.localCmd ("git status " ++ uf ++ " --porcelain")])

/-- git_init from api.py: checks whether repo_path/.git exists on the
    remote; if so only reruns the receive.denyCurrentBranch
    configuration, otherwise creates the directory, runs git init
    inside it and applies the same configuration.  fabric cd wraps the
    command as a cd prefix.  Only the trace matters for the claims, so
    the function returns the list of issued actions. -/
def git_init (repo_path : String) (use_sudo : Bool) (sudo_user : Option String)
    (w : GitWorld) : List Act :=
  if w.remoteRepoExists then
    [Act.existsCheck use_sudo (repo_path ++ "/.git"),
     Act.remoteCmd use_sudo sudo_user "git config receive.denyCurrentBranch ignore"]
  else
    [Act.existsCheck use_sudo (repo_path ++ "/.git"),
     Act.remoteCmd use_sudo sudo_user ("mkdir -p " ++ repo_path),
     Act.remoteCmd use_sudo sudo_user ("cd " ++ repo_path ++ " && git init"),
     Act.remoteCmd use_sudo sudo_user ("cd " ++ repo_path ++ " && git config receive.denyCurrentBranch ignore")]

/-- The commit git_seed operates on: the commit argument when truthy, else HEAD. -/
def resolvedCommit (w : GitWorld) (a : SeedArgs) : String :=
  pyOrD a.commit w.headRev

/-- The remote branch git_seed pushes to: the remote_branch argument
    when truthy, else the current local branch. -/
def resolvedBranch (w : GitWorld) (a : SeedArgs) : String :=
  if pyTruthy a.remote_branch then pyOrD a.remote_branch "" else w.currentBranch

/-- The user on the push URL: remote_git_user or sudo_user or env.user,
    with Python or semantics. -/
def resolveRemoteUser (e : FabricEnv) (a : SeedArgs) : String :=
  pyOrD a.remote_git_user (pyOrD a.sudo_user e.user)

/-- The push command string of git_seed:
    git push git+ssh://user@host:port repo_path mapping
    commit:refs/heads/branch, with the force string interpolated last. -/
def pushCmdStr (user host port repo_path commit branch force : String) : String :=
  "git push git+ssh://" ++ user ++ "@" ++ host ++ ":" ++ port ++ repo_path ++ " " ++
    commit ++ ":refs/heads/" ++ branch ++ " " ++ force

/-- The tail of git_seed from the push on: builds the push command from
    the resolved user and the force flag, runs it inside warn_only, and
    aborts with the non-fast-forward message when it fails. -/
def pushStep (e : FabricEnv) (w : GitWorld) (a : SeedArgs)
    (commit remote_branch : String) (tr : List Act) : SeedResult × List Act :=
  let user := resolveRemoteUser e a
  let force := if e.gitric_force_push then "-f" else ""
  let tr := tr ++ [Act.pushCmd (pushCmdStr user e.host e.port a.repo_path commit remote_branch force)]
  if w.pushFails then
    (SeedResult.aborted (nonFastForwardMsg commit), tr)
  else
    (SeedResult.ok, tr)

/-- git_seed from api.py: dirty check (abort when dirty), git_init,
    commit resolution (argument or HEAD), remote branch resolution
    (argument, or current branch plus a containment check on the
    output of git branch --contains, aborting when the line star-space
    branch does not occur in it), then the push and the
    non-fast-forward abort on push failure. -/
def git_seed (e : FabricEnv) (w : GitWorld) (a : SeedArgs) : SeedResult × List Act :=
  let dirty := git_is_dirty e w a.ignore_untracked_files
  if dirty.1 then
    (SeedResult.aborted dirtyAbortMsg, dirty.2)
  else
    let tr := dirty.2 ++ git_init a.repo_path a.use_sudo a.sudo_user w
    let cr : String × List Act :=
      if pyTruthy a.commit then (pyOrD a.commit "", [])
      else (w.headRev, [Act.localCmd "git rev-parse HEAD"])
    let commit := cr.1
    let tr := tr ++ cr.2
    if pyTruthy a.remote_branch then
      pushStep e w a commit (pyOrD a.remote_branch "") tr
    else
      let remote_branch := w.currentBranch
      let tr := tr ++ [Act.localCmd "git rev-parse --abbrev-ref HEAD",
                       Act.branchCheckCmd ("git branch --contains " ++ commit)]
      if strContains (w.branchContains commit) ("* " ++ remote_branch) then
        pushStep e w a commit remote_branch tr
      else
        (SeedResult.aborted (notInBranchMsg commit remote_branch), tr)

/-- The trace git_seed issues before the push, on runs that reach the push. -/
def preTrace (e : FabricEnv) (w : GitWorld) (a : SeedArgs) : List Act :=
  (git_is_dirty e w a.ignore_untracked_files).2 ++
    git_init a.repo_path a.use_sudo a.sudo_user w ++
    (if pyTruthy a.commit then [] else [Act.localCmd "git rev-parse HEAD"]) ++
    (if pyTruthy a.remote_branch then []
     else [Act.localCmd "git rev-parse --abbrev-ref HEAD",
           Act.branchCheckCmd ("git branch --contains " ++ resolvedCommit w a)])

/-- Remote filesystem state used by the blue/green switcher: the set of
    existing directories and the symlinks as a path-to-target map. -/
structure FS where
  dirs : List String
  links : List (String × String)
  deriving DecidableEq

/-- Target of the symlink at p, when one exists. -/
def FS.lookupLink (fs : FS) (p : String) : Option String :=
  (fs.links.find? (fun x => x.1 == p)).map (fun x => x.2)

/-- fabric exists: the path is present as a directory or as a symlink. -/
def FS.existsPath (fs : FS) (p : String) : Bool :=
  fs.dirs.contains p || (fs.lookupLink p).isSome

/-- mkdir -p for one path: no-op when the directory already exists. -/
def FS.mkdirP (fs : FS) (p : String) : FS :=
  if fs.dirs.contains p then fs else { dirs := fs.dirs ++ [p], links := fs.links }

/-- ln -nsf target p (and ln -s at a fresh p): the symlink at p now
    points at t, any previous link at p is replaced. -/
def FS.setLink (fs : FS) (p t : String) : FS :=
  { dirs := fs.dirs, links := (p, t) :: fs.links.filter (fun x => !(x.1 == p)) }

/-- The guarded symlink creation of init_bluegreen: if not exists(p),
    run ln -s t p. -/
def FS.ensureLink (fs : FS) (p t : String) : FS :=
  if fs.existsPath p then fs else fs.setLink p t

/-- readlink -f, one resolution step: the link target when p is a
    symlink, else p itself. -/
def FS.readlinkF (fs : FS) (p : String) : String :=
  (fs.lookupLink p).getD p

/-- The fabric env fields used by the blue/green switcher, all optional
    to model presence of the key in the env dictionary (require aborts
    when a key is missing). -/
structure BGEnv where
  bluegreen_root : Option String
  bluegreen_ports : Option (List (String × Nat))
  green_path : Option String
  blue_path : Option String
  next_path_abs : Option String
  live_path_abs : Option String
  next_path : Option String
  live_path : Option String
  virtualenv_path : Option String
  pidfile : Option String
  nginx_conf : Option String
  color : Option String
  bluegreen_port : Option Nat
  deriving DecidableEq

/-- Python dict get on the ports mapping. -/
def portsGet (ps : List (String × Nat)) (c : String) : Option Nat :=
  (ps.find? (fun x => x.1 == c)).map (fun x => x.2)

/-- Abort message of fabric require when a needed env key is missing. -/
def missingStateMsg : String := "missing required state"

/-- init_bluegreen from api.py: requires bluegreen_root and
    bluegreen_ports, computes the slot and symlink paths, runs one
    mkdir -p over root, blue, green, blue/etc and green/etc, creates
    the live symlink to blue and the next symlink to green when they do
    not exist yet, resolves both symlinks with readlink -f, and stores
    the resolved paths, the derived per-slot paths, the next color
    (basename of the resolved next path) and its port in env. -/
def init_bluegreen (e : BGEnv) (fs : FS) : Except String (BGEnv × FS) :=
  match e.bluegreen_root, e.bluegreen_ports with
  | some root, some ports =>
    let green_path := pathJoin root "green"
    let blue_path := pathJoin root "blue"
    let npa := pathJoin root "next"
    let lpa := pathJoin root "live"
    let fs1 := ((((fs.mkdirP root).mkdirP blue_path).mkdirP green_path).mkdirP
      (blue_path ++ "/etc")).mkdirP (green_path ++ "/etc")
    let fs2 := fs1.ensureLink lpa blue_path
    let fs3 := fs2.ensureLink npa green_path
    let next_path := fs3.readlinkF npa
    let live_path := fs3.readlinkF lpa
    Except.ok
      ({ e with
          green_path := some green_path
          blue_path := some blue_path
          next_path_abs := some npa
          live_path_abs := some lpa
          next_path := some next_path
          live_path := some live_path
          virtualenv_path := some (pathJoin next_path "env")
          pidfile := some (pathJoin (pathJoin next_path "etc") "app.pid")
          nginx_conf := some (pathJoin (pathJoin next_path "etc") "nginx.conf")
          color := some (basename next_path)
          bluegreen_port := portsGet ports (basename next_path) }, fs3)
  | _, _ => Except.error missingStateMsg

/-- swap_bluegreen from api.py: requires the four cached path keys and
    repoints live to the cached resolved next target and next to the
    cached resolved live target with ln -nsf.  The cached env values
    themselves are not updated. -/
def swap_bluegreen (e : BGEnv) (fs : FS) : Except String FS :=
  match e.next_path, e.live_path, e.live_path_abs, e.next_path_abs with
  | some np, some lp, some lpa, some npa =>
      Except.ok ((fs.setLink lpa np).setLink npa lp)
  | _, _, _, _ => Except.error missingStateMsg

/-- Concrete world for witnesses: clean status, branch main at abc123,
    containment listing with main current, existing remote repo,
    succeeding push. -/
def w0 : GitWorld :=
  { statusPorcelain := fun _ => ""
    currentBranch := "main"
    headRev := "abc123"
    branchContains := fun _ => "* main"
    remoteRepoExists := true
    pushFails := false }

/-- Concrete world with a dirty working copy. -/
def wDirty : GitWorld := { w0 with statusPorcelain := fun _ => " M api.py" }

/-- Concrete world where the push fails. -/
def wPushFail : GitWorld := { w0 with pushFails := true }

/-- Concrete world where the containment listing lacks the current branch line. -/
def wNotInBranch : GitWorld := { w0 with branchContains := fun _ => "  dev" }

/-- Concrete fabric env for witnesses: no overrides set. -/
def e0 : FabricEnv :=
  { gitric_allow_dirty := false
    gitric_force_push := false
    user := "deploy"
    host := "example.com"
    port := "22" }

/-- Concrete fabric env with the allow_dirty override set. -/
def eAllowDirty : FabricEnv := { e0 with gitric_allow_dirty := true }

/-- Concrete fabric env with the force_push override set. -/
def eForcePush : FabricEnv := { e0 with gitric_force_push := true }

/-- Concrete seed arguments: everything defaulted. -/
def a0 : SeedArgs :=
  { repo_path := "/srv/repo"
    commit := none
    remote_branch := none
    ignore_untracked_files := false
    use_sudo := false
    sudo_user := none
    remote_git_user := none }

/-- Empty remote filesystem. -/
def fsEmpty : FS := { dirs := [], links := [] }

/-- Concrete blue/green env before init: the spec scenario with
    root /srv/app and ports blue 8001, green 8002. -/
def bgExample : BGEnv :=
  { bluegreen_root := some "/srv/app"
    bluegreen_ports := some [("blue", 8001), ("green", 8002)]
    green_path := none
    blue_path := none
    next_path_abs := none
    live_path_abs := none
    next_path := none
    live_path := none
    virtualenv_path := none
    pidfile := none
    nginx_conf := none
    color := none
    bluegreen_port := none }

/-- The scenario init, swap, swap on the fresh example root, recording
    the env after init and the filesystem after each step.  The second
    swap runs against the same env because swap_bluegreen never writes
    the cached paths back. -/
def bgScenario : Option (BGEnv × FS × FS × FS) :=
  match init_bluegreen bgExample fsEmpty with
  | Except.ok (e1, fs1) =>
    match swap_bluegreen e1 fs1 with
    | Except.ok fs2 =>
      match swap_bluegreen e1 fs2 with
      | Except.ok fs3 => some (e1, fs1, fs2, fs3)
      | Except.error _ => none
    | Except.error _ => none
  | Except.error _ => none

/-- The env state produced by init on the fresh example root. -/
def bgInitEnv : BGEnv :=
  { bluegreen_root := some "/srv/app"
    bluegreen_ports := some [("blue", 8001), ("green", 8002)]
    green_path := some "/srv/app/green"
    blue_path := some "/srv/app/blue"
    next_path_abs := some "/srv/app/next"
    live_path_abs := some "/srv/app/live"
    next_path := some "/srv/app/green"
    live_path := some "/srv/app/blue"
    virtualenv_path := some "/srv/app/green/env"
    pidfile := some "/srv/app/green/etc/app.pid"
    nginx_conf := some "/srv/app/green/etc/nginx.conf"
    color := some "green"
    bluegreen_port := some 8002 }

/-- The filesystem produced by init on the fresh example root. -/
def bgInitFs : FS :=
  { dirs := ["/srv/app", "/srv/app/blue", "/srv/app/green",
             "/srv/app/blue/etc", "/srv/app/green/etc"]
    links := [("/srv/app/next", "/srv/app/green"), ("/srv/app/live", "/srv/app/blue")] }

/-- The filesystem after one swap on the fresh example root. -/
def bgSwappedFs : FS :=
  { dirs := ["/srv/app", "/srv/app/blue", "/srv/app/green",
             "/srv/app/blue/etc", "/srv/app/green/etc"]
    links := [("/srv/app/next", "/srv/app/blue"), ("/srv/app/live", "/srv/app/green")] }

/-!
Helper lemmas about the Python conventions and the trace.
-/

theorem pyOrD_irrel {o : Option String} (d d' : String) (h : pyTruthy o = true) :
    pyOrD o d = pyOrD o d' := by
  cases o with
  | none => simp [pyTruthy] at h
  | some s =>
    simp [pyTruthy] at h
    simp [pyOrD, h]

theorem resolvedCommit_of_truthy (w : GitWorld) {a : SeedArgs}
    (h : pyTruthy a.commit = true) : pyOrD a.commit "" = resolvedCommit w a :=
  pyOrD_irrel "" w.headRev h

theorem resolvedCommit_of_falsy {w : GitWorld} {a : SeedArgs}
    (h : pyTruthy a.commit = false) : resolvedCommit w a = w.headRev := by
  unfold resolvedCommit
  cases hc : a.commit with
  | none => rfl
  | some s =>
    rw [hc] at h
    simp [pyTruthy] at h
    simp [pyOrD, h]

theorem strContainsGo_append_right (p l1 l2 : List Char)
    (h : strContainsGo p l2 = true) : strContainsGo p (l1 ++ l2) = true := by
  induction l1 with
  | nil => simpa using h
  | cons c cs ih =>
    show (p.isPrefixOf (c :: (cs ++ l2)) || strContainsGo p (cs ++ l2)) = true
    rw [Bool.or_eq_true]
    exact Or.inr ih

theorem strContains_append_right (s1 s2 pat : String)
    (h : strContains s2 pat = true) : strContains (s1 ++ s2) pat = true := by
  unfold strContains at h ⊢
  rw [String.data_append]
  exact strContainsGo_append_right _ _ _ h

/-!
C6 and C2: the dirty working copy check and the dirty abort.
-/

/-- C6: git_is_dirty returns false unconditionally whenever the
    allow-dirty override is set, regardless of the repository state;
    when the override is not set, it returns true exactly when the
    output of git status --porcelain (with untracked files excluded
    when the flag asks for it) is non-empty. -/
theorem git_is_dirty_spec (e : FabricEnv) (w : GitWorld) (iu : Bool) :
    (e.gitric_allow_dirty = true → (git_is_dirty e w iu).1 = false) ∧
    (e.gitric_allow_dirty = false →
      ((git_is_dirty e w iu).1 = true ↔ w.statusPorcelain iu ≠ "")) := by
  constructor
  · intro h
    simp [git_is_dirty, h]
  · intro h
    simp [git_is_dirty, h]

/-- C6 witness: with the override set the dirty world still reports
    clean; without the override the same world reports dirty. -/
theorem git_is_dirty_spec_witness :
    (git_is_dirty eAllowDirty wDirty false).1 = false ∧
    (git_is_dirty e0 wDirty false).1 = true := by
  constructor
  · exact (git_is_dirty_spec eAllowDirty wDirty false).1 rfl
  · exact ((git_is_dirty_spec e0 wDirty false).2 rfl).mpr (by decide)

/-- C2: when the allow-dirty override is not set and git status has
    output, git_seed aborts with the dirty working copy message, and
    its trace contains no remote command, no remote existence check and
    no push: the seed fails before any remote action. -/
theorem git_seed_dirty_aborts_before_remote (e : FabricEnv) (w : GitWorld) (a : SeedArgs)
    (hallow : e.gitric_allow_dirty = false)
    (hdirty : w.statusPorcelain a.ignore_untracked_files ≠ "") :
    (git_seed e w a).1 = SeedResult.aborted dirtyAbortMsg ∧
    (git_seed e w a).2.all (fun x => !(x.isRemote || x.isPush)) = true := by
  have hb : (w.statusPorcelain a.ignore_untracked_files == "") = false := by
    simp [hdirty]
  constructor <;>
    simp [git_seed, git_is_dirty, hallow, hb, Act.isRemote, Act.isPush]

/-- C2 witness: the concrete dirty scenario aborts with no remote action. -/
theorem git_seed_dirty_aborts_before_remote_witness :
    (git_seed e0 wDirty a0).1 = SeedResult.aborted dirtyAbortMsg ∧
    (git_seed e0 wDirty a0).2.all (fun x => !(x.isRemote || x.isPush)) = true :=
  git_seed_dirty_aborts_before_remote e0 wDirty a0 rfl (by decide)

/-!
The runs of git_seed that reach the push, and the claims about the
push command, the non-fast-forward abort and the containment check.
-/

theorem preTrace_no_push (e : FabricEnv) (w : GitWorld) (a : SeedArgs) :
    (preTrace e w a).all (fun x => !(x.isPush)) = true := by
  unfold preTrace git_is_dirty git_init
  repeat' split
  all_goals simp [Act.isPush]

theorem preTrace_countP_push (e : FabricEnv) (w : GitWorld) (a : SeedArgs) :
    (preTrace e w a).countP (fun x => x.isPush) = 0 := by
  rw [List.countP_eq_zero]
  intro x hx
  have h := preTrace_no_push e w a
  rw [List.all_eq_true] at h
  have hx' := h x hx
  simp at hx'
  simp [hx']

theorem preTrace_no_branchCheck (e : FabricEnv) (w : GitWorld) (a : SeedArgs)
    (hb : pyTruthy a.remote_branch = true) :
    (preTrace e w a).all (fun x => !(x.isBranchCheck)) = true := by
  unfold preTrace git_is_dirty git_init
  simp only [hb, if_true]
  repeat' split
  all_goals simp [Act.isBranchCheck]

theorem git_seed_reach (e : FabricEnv) (w : GitWorld) (a : SeedArgs)
    (hclean : (git_is_dirty e w a.ignore_untracked_files).1 = false)
    (hreach : pyTruthy a.remote_branch = true ∨
      strContains (w.branchContains (resolvedCommit w a)) ("* " ++ w.currentBranch) = true) :
    git_seed e w a =
      pushStep e w a (resolvedCommit w a) (resolvedBranch w a) (preTrace e w a) := by
  by_cases hc : pyTruthy a.commit = true
  · by_cases hb : pyTruthy a.remote_branch = true
    · simp only [git_seed, preTrace, resolvedBranch, hclean, hc, hb,
        Bool.false_eq_true, if_false, if_true, List.append_nil]
      rw [resolvedCommit_of_truthy w hc]
    · rw [Bool.not_eq_true] at hb
      rcases hreach with hb' | hcon
      · exact absurd hb' (by simp [hb])
      · simp only [git_seed, preTrace, resolvedBranch, hclean, hc, hb,
          Bool.false_eq_true, if_false, if_true, List.append_nil]
        rw [resolvedCommit_of_truthy w hc]
        simp [hcon]
  · rw [Bool.not_eq_true] at hc
    by_cases hb : pyTruthy a.remote_branch = true
    · simp only [git_seed, preTrace, resolvedBranch, hclean, hc, hb,
        Bool.false_eq_true, if_false, if_true, List.append_nil,
        resolvedCommit_of_falsy hc]
    · rw [Bool.not_eq_true] at hb
      rcases hreach with hb' | hcon
      · exact absurd hb' (by simp [hb])
      · rw [resolvedCommit_of_falsy hc] at hcon
        simp only [git_seed, preTrace, resolvedBranch, hclean, hc, hb,
          Bool.false_eq_true, if_false, if_true, List.append_nil,
          resolvedCommit_of_falsy hc]
        simp [hcon]

theorem git_seed_notcontained (e : FabricEnv) (w : GitWorld) (a : SeedArgs)
    (hclean : (git_is_dirty e w a.ignore_untracked_files).1 = false)
    (hb : pyTruthy a.remote_branch = false)
    (hcon : strContains (w.branchContains (resolvedCommit w a)) ("* " ++ w.currentBranch) = false) :
    git_seed e w a =
      (SeedResult.aborted (notInBranchMsg (resolvedCommit w a) w.currentBranch),
        preTrace e w a) := by
  by_cases hc : pyTruthy a.commit = true
  · simp only [git_seed, preTrace, hclean, hc, hb, Bool.false_eq_true,
      if_false, if_true, List.append_nil]
    rw [resolvedCommit_of_truthy w hc]
    simp [hcon]
  · rw [Bool.not_eq_true] at hc
    rw [resolvedCommit_of_falsy hc] at hcon
    simp only [git_seed, preTrace, hclean, hc, hb, Bool.false_eq_true,
      if_false, if_true, List.append_nil, resolvedCommit_of_falsy hc]
    simp [hcon]

theorem pushStep_trace (e : FabricEnv) (w : GitWorld) (a : SeedArgs)
    (c b : String) (tr : List Act) :
    (pushStep e w a c b tr).2 = tr ++
      [Act.pushCmd (pushCmdStr (resolveRemoteUser e a) e.host e.port a.repo_path c b
        (if e.gitric_force_push then "-f" else ""))] := by
  simp only [pushStep]
  split <;> rfl

theorem pushStep_fail (e : FabricEnv) (w : GitWorld) (a : SeedArgs)
    (c b : String) (tr : List Act) (hfail : w.pushFails = true) :
    (pushStep e w a c b tr).1 = SeedResult.aborted (nonFastForwardMsg c) := by
  simp [pushStep, hfail]

theorem pushStep_ok (e : FabricEnv) (w : GitWorld) (a : SeedArgs)
    (c b : String) (tr : List Act) (hfail : w.pushFails = false) :
    (pushStep e w a c b tr).1 = SeedResult.ok := by
  simp [pushStep, hfail]

/-- C4: when a run that reaches the push sees the push fail and the
    force-push override is not set, git_seed aborts with the
    non-fast-forward message, that message mentions the force_push
    override, and exactly one push command was issued: there is no
    retry. -/
theorem git_seed_nonfastforward_abort (e : FabricEnv) (w : GitWorld) (a : SeedArgs)
    (hclean : (git_is_dirty e w a.ignore_untracked_files).1 = false)
    (hreach : pyTruthy a.remote_branch = true ∨
      strContains (w.branchContains (resolvedCommit w a)) ("* " ++ w.currentBranch) = true)
    (hfail : w.pushFails = true)
    (_hforce : e.gitric_force_push = false) :
    (git_seed e w a).1 = SeedResult.aborted (nonFastForwardMsg (resolvedCommit w a)) ∧
    strContains (nonFastForwardMsg (resolvedCommit w a)) "force_push" = true ∧
    (git_seed e w a).2.countP (fun x => x.isPush) = 1 := by
  rw [git_seed_reach e w a hclean hreach]
  refine ⟨?_, ?_, ?_⟩
  · exact pushStep_fail e w a _ _ _ hfail
  · unfold nonFastForwardMsg
    exact strContains_append_right _ _ _ (by decide)
  · rw [pushStep_trace, List.countP_append, preTrace_countP_push]
    simp [List.countP_cons, Act.isPush]

/-- C4 witness: the concrete failing push without force aborts after
    exactly one push attempt. -/
theorem git_seed_nonfastforward_abort_witness :
    (git_seed e0 wPushFail a0).1 = SeedResult.aborted (nonFastForwardMsg "abc123") ∧
    strContains (nonFastForwardMsg "abc123") "force_push" = true ∧
    (git_seed e0 wPushFail a0).2.countP (fun x => x.isPush) = 1 :=
  git_seed_nonfastforward_abort e0 wPushFail a0 (by decide) (Or.inr (by decide)) rfl rfl

/-- C10: a failing push aborts git_seed with the non-fast-forward
    message even when the force-push override is set: the abort branch
    tests only the push status, not the force flag. -/
theorem git_seed_push_failure_despite_force (e : FabricEnv) (w : GitWorld) (a : SeedArgs)
    (hclean : (git_is_dirty e w a.ignore_untracked_files).1 = false)
    (hreach : pyTruthy a.remote_branch = true ∨
      strContains (w.branchContains (resolvedCommit w a)) ("* " ++ w.currentBranch) = true)
    (hfail : w.pushFails = true)
    (_hforce : e.gitric_force_push = true) :
    (git_seed e w a).1 = SeedResult.aborted (nonFastForwardMsg (resolvedCommit w a)) := by
  rw [git_seed_reach e w a hclean hreach]
  exact pushStep_fail e w a _ _ _ hfail

/-- C10 witness: the concrete failing push aborts although force_push is set. -/
theorem git_seed_push_failure_despite_force_witness :
    (git_seed eForcePush wPushFail a0).1 = SeedResult.aborted (nonFastForwardMsg "abc123") :=
  git_seed_push_failure_despite_force eForcePush wPushFail a0 (by decide)
    (Or.inr (by decide)) rfl rfl

/-- C8: every run that reaches the push issues exactly the command
    git push git+ssh://user at host:port repo_path commit:refs/heads/branch,
    with -f appended exactly when the force-push override is set, and
    the user resolved as remote_git_user when supplied non-empty, else
    sudo_user when supplied non-empty, else the ambient env user. -/
theorem git_seed_push_command_format (e : FabricEnv) (w : GitWorld) (a : SeedArgs)
    (hclean : (git_is_dirty e w a.ignore_untracked_files).1 = false)
    (hreach : pyTruthy a.remote_branch = true ∨
      strContains (w.branchContains (resolvedCommit w a)) ("* " ++ w.currentBranch) = true) :
    (git_seed e w a).2 = preTrace e w a ++
      [Act.pushCmd (pushCmdStr (resolveRemoteUser e a) e.host e.port a.repo_path
        (resolvedCommit w a) (resolvedBranch w a)
        (if e.gitric_force_push then "-f" else ""))] ∧
    (∀ u, a.remote_git_user = some u → u ≠ "" → resolveRemoteUser e a = u) ∧
    (a.remote_git_user = none →
      ∀ u, a.sudo_user = some u → u ≠ "" → resolveRemoteUser e a = u) ∧
    (a.remote_git_user = none → a.sudo_user = none → resolveRemoteUser e a = e.user) := by
  refine ⟨?_, ?_, ?_, ?_⟩
  · rw [git_seed_reach e w a hclean hreach]
    exact pushStep_trace e w a _ _ _
  · intro u hu hne
    simp [resolveRemoteUser, hu, pyOrD, hne]
  · intro h0 u hu hne
    simp [resolveRemoteUser, h0, hu, pyOrD, hne]
  · intro h0 h1
    simp [resolveRemoteUser, h0, h1, pyOrD]

/-- C8 witness: the concrete clean run pushes abc123 to refs/heads/main
    as user deploy with no force flag. -/
theorem git_seed_push_command_format_witness :
    (git_seed e0 w0 a0).2 = preTrace e0 w0 a0 ++
      [Act.pushCmd (pushCmdStr "deploy" "example.com" "22" "/srv/repo" "abc123" "main" "")] ∧
    resolveRemoteUser e0 a0 = "deploy" := by
  have h := git_seed_push_command_format e0 w0 a0 (by decide) (Or.inr (by decide))
  exact ⟨h.1, h.2.2.2 rfl rfl⟩

/-- C3: when the remote branch is not supplied, git_seed resolves it to
    the current local branch and, when the containment listing for the
    resolved commit lacks the star line of that branch, aborts with the
    commit-not-in-branch message without issuing any push; when the
    remote branch is supplied (non-empty), no containment listing is
    ever run and the run proceeds to the push. -/
theorem git_seed_containment_check (e : FabricEnv) (w : GitWorld) (a : SeedArgs)
    (hclean : (git_is_dirty e w a.ignore_untracked_files).1 = false) :
    (a.remote_branch = none →
      strContains (w.branchContains (resolvedCommit w a)) ("* " ++ w.currentBranch) = false →
      (git_seed e w a).1 =
        SeedResult.aborted (notInBranchMsg (resolvedCommit w a) w.currentBranch) ∧
      (git_seed e w a).2.all (fun x => !(x.isPush)) = true) ∧
    (∀ b, a.remote_branch = some b → b ≠ "" →
      (git_seed e w a).2.all (fun x => !(x.isBranchCheck)) = true ∧
      ((git_seed e w a).1 = SeedResult.ok ∨
       (git_seed e w a).1 = SeedResult.aborted (nonFastForwardMsg (resolvedCommit w a)))) := by
  constructor
  · intro hbr hcon
    have hb : pyTruthy a.remote_branch = false := by rw [hbr]; rfl
    rw [git_seed_notcontained e w a hclean hb hcon]
    exact ⟨rfl, preTrace_no_push e w a⟩
  · intro b hbs hbne
    have hb : pyTruthy a.remote_branch = true := by
      rw [hbs]; simp [pyTruthy, hbne]
    rw [git_seed_reach e w a hclean (Or.inl hb)]
    constructor
    · rw [pushStep_trace, List.all_append, Bool.and_eq_true]
      exact ⟨preTrace_no_branchCheck e w a hb, by simp [Act.isBranchCheck]⟩
    · cases hf : w.pushFails
      · left
        exact pushStep_ok e w a _ _ _ hf
      · right
        exact pushStep_fail e w a _ _ _ hf

/-- C3 witness: in the concrete scenario where the containment listing
    lacks the current branch line, seed aborts without pushing. -/
theorem git_seed_containment_check_witness :
    (git_seed e0 wNotInBranch a0).1 = SeedResult.aborted (notInBranchMsg "abc123" "main") ∧
    (git_seed e0 wNotInBranch a0).2.all (fun x => !(x.isPush)) = true :=
  (git_seed_containment_check e0 wNotInBranch a0 (by decide)).1 rfl (by decide)

/-!
Lemmas about the filesystem model of the blue/green switcher.
-/

theorem find?_filter_of_imp {α : Type} (pr keep : α → Bool) (l : List α)
    (h : ∀ x, pr x = true → keep x = true) :
    (l.filter keep).find? pr = l.find? pr := by
  induction l with
  | nil => rfl
  | cons a t ih =>
    by_cases hk : keep a = true
    · rw [List.filter_cons_of_pos hk]
      by_cases hp : pr a = true
      · rw [List.find?_cons_of_pos _ hp, List.find?_cons_of_pos _ hp]
      · rw [Bool.not_eq_true] at hp
        rw [List.find?_cons_of_neg _ (by simp [hp]),
          List.find?_cons_of_neg _ (by simp [hp]), ih]
    · rw [Bool.not_eq_true] at hk
      have hp : pr a = false := by
        cases hpa : pr a
        · rfl
        · exact absurd (h a hpa) (by simp [hk])
      rw [List.filter_cons_of_neg (by simp [hk]), ih,
        List.find?_cons_of_neg _ (by simp [hp])]

theorem FS.lookupLink_setLink_self (fs : FS) (p t : String) :
    (fs.setLink p t).lookupLink p = some t := by
  unfold FS.setLink FS.lookupLink
  dsimp only
  rw [List.find?_cons_of_pos _ (by simp)]
  rfl

theorem FS.lookupLink_setLink_ne (fs : FS) (p t q : String) (h : q ≠ p) :
    (fs.setLink p t).lookupLink q = fs.lookupLink q := by
  unfold FS.setLink FS.lookupLink
  dsimp only
  rw [List.find?_cons_of_neg _ (by simp; exact fun hh => h hh.symm)]
  rw [find?_filter_of_imp]
  intro x hx
  simp at hx ⊢
  rw [hx]
  exact h

theorem FS.setLink_dirs (fs : FS) (p t : String) : (fs.setLink p t).dirs = fs.dirs := rfl

theorem FS.mkdirP_links (fs : FS) (p : String) : (fs.mkdirP p).links = fs.links := by
  unfold FS.mkdirP
  split <;> rfl

theorem FS.mkdirP_of_contains (fs : FS) (p : String) (h : fs.dirs.contains p = true) :
    fs.mkdirP p = fs := by
  unfold FS.mkdirP
  rw [if_pos h]

theorem containsAppend (l1 l2 : List String) (q : String) :
    (l1 ++ l2).contains q = (l1.contains q || l2.contains q) := by
  induction l1 with
  | nil => simp
  | cons a t ih => simp [List.contains_cons, ih, Bool.or_assoc]

theorem FS.contains_mkdirP_self (fs : FS) (p : String) :
    (fs.mkdirP p).dirs.contains p = true := by
  unfold FS.mkdirP
  split
  · assumption
  · show (fs.dirs ++ [p]).contains p = true
    rw [containsAppend]
    simp [List.contains_cons]

theorem FS.contains_mkdirP_mono (fs : FS) (p q : String)
    (h : fs.dirs.contains q = true) : (fs.mkdirP p).dirs.contains q = true := by
  unfold FS.mkdirP
  split
  · exact h
  · show (fs.dirs ++ [p]).contains q = true
    rw [containsAppend, h]
    rfl

theorem FS.contains_mkdirP_of_ne (fs : FS) (p q : String)
    (h : fs.dirs.contains q = false) (hne : q ≠ p) :
    (fs.mkdirP p).dirs.contains q = false := by
  unfold FS.mkdirP
  split
  · exact h
  · show (fs.dirs ++ [p]).contains q = false
    rw [containsAppend, h]
    simp [List.contains_cons, hne]

theorem FS.existsPath_setLink_self (fs : FS) (p t : String) :
    (fs.setLink p t).existsPath p = true := by
  unfold FS.existsPath
  rw [FS.lookupLink_setLink_self]
  simp

theorem FS.existsPath_setLink_mono (fs : FS) (p t q : String)
    (h : fs.existsPath q = true) : (fs.setLink p t).existsPath q = true := by
  by_cases hqp : q = p
  · subst hqp
    exact FS.existsPath_setLink_self fs q t
  · unfold FS.existsPath at h ⊢
    rw [FS.lookupLink_setLink_ne fs p t q hqp]
    exact h

theorem FS.existsPath_setLink_of_ne (fs : FS) (p t q : String)
    (h : fs.existsPath q = false) (hne : q ≠ p) :
    (fs.setLink p t).existsPath q = false := by
  unfold FS.existsPath at h ⊢
  rw [FS.lookupLink_setLink_ne fs p t q hne]
  exact h

theorem FS.lookupLink_mkdirP (fs : FS) (p q : String) :
    (fs.mkdirP p).lookupLink q = fs.lookupLink q := by
  unfold FS.lookupLink
  rw [FS.mkdirP_links]

theorem FS.existsPath_mkdirP_mono (fs : FS) (p q : String)
    (h : fs.existsPath q = true) : (fs.mkdirP p).existsPath q = true := by
  unfold FS.existsPath at h ⊢
  rw [FS.lookupLink_mkdirP]
  rw [Bool.or_eq_true] at h ⊢
  rcases h with h | h
  · exact Or.inl (FS.contains_mkdirP_mono fs p q h)
  · exact Or.inr h

theorem FS.existsPath_mkdirP_of_ne (fs : FS) (p q : String)
    (h : fs.existsPath q = false) (hne : q ≠ p) :
    (fs.mkdirP p).existsPath q = false := by
  unfold FS.existsPath at h ⊢
  rw [FS.lookupLink_mkdirP]
  rw [Bool.or_eq_false_iff] at h ⊢
  exact ⟨FS.contains_mkdirP_of_ne fs p q h.1 hne, h.2⟩

theorem FS.setLink_twice (fs : FS) (p t q u : String) :
    (((fs.setLink p t).setLink q u).setLink p t).setLink q u =
      (fs.setLink p t).setLink q u := by
  by_cases hpq : p = q
  · subst hpq
    simp [FS.setLink, List.filter_cons, List.filter_filter, Bool.and_self]
  · have h1 : (p == q) = false := beq_eq_false_iff_ne.mpr hpq
    have h2 : (q == p) = false := beq_eq_false_iff_ne.mpr (fun hh => hpq hh.symm)
    simp only [FS.setLink, FS.mk.injEq, true_and]
    simp [List.filter_cons, List.filter_filter, h1, h2]
    try
      apply List.filter_congr
      intro a _
      cases ha1 : a.1 == p <;> cases ha2 : a.1 == q <;> simp [ha1, ha2]

theorem FS.ensureLink_dirs (fs : FS) (p t : String) :
    (fs.ensureLink p t).dirs = fs.dirs := by
  unfold FS.ensureLink
  split <;> rfl

theorem FS.ensureLink_contains (fs : FS) (p t q : String)
    (h : fs.dirs.contains q = true) : (fs.ensureLink p t).dirs.contains q = true := by
  unfold FS.ensureLink
  split <;> exact h

theorem FS.ensureLink_exists_self (fs : FS) (p t : String) :
    (fs.ensureLink p t).existsPath p = true := by
  unfold FS.ensureLink
  split
  · assumption
  · exact FS.existsPath_setLink_self fs p t

theorem FS.ensureLink_exists_mono (fs : FS) (p t q : String)
    (h : fs.existsPath q = true) : (fs.ensureLink p t).existsPath q = true := by
  unfold FS.ensureLink
  split
  · exact h
  · exact FS.existsPath_setLink_mono fs p t q h

theorem FS.ensureLink_of_exists (fs : FS) (p t : String)
    (h : fs.existsPath p = true) : fs.ensureLink p t = fs := by
  unfold FS.ensureLink
  rw [if_pos h]

theorem FS.ensureLink_of_fresh (fs : FS) (p t : String)
    (h : fs.existsPath p = false) : fs.ensureLink p t = fs.setLink p t := by
  unfold FS.ensureLink
  rw [if_neg (by simp [h])]

/-- C9: swap_bluegreen is idempotent within one process: it repoints
    the symlinks from the live and next targets cached in env (resolved
    at init time) and never updates that cached state, so a second swap
    reissues the same repoints and leaves the symlink layout identical
    to the state after a single swap. -/
theorem swap_bluegreen_idempotent (e : BGEnv) (fs fs2 : FS)
    (h : swap_bluegreen e fs = Except.ok fs2) :
    swap_bluegreen e fs2 = Except.ok fs2 := by
  rcases hnp : e.next_path with _ | np <;>
    rcases hlp : e.live_path with _ | lp <;>
      rcases hlpa : e.live_path_abs with _ | lpa <;>
        rcases hnpa : e.next_path_abs with _ | npa <;>
          simp only [swap_bluegreen, hnp, hlp, hlpa, hnpa] at h ⊢ <;>
            first
            | (injection h with h2
               rw [← h2, FS.setLink_twice])
            | cases h

/-- C9 witness: a second swap on the swapped example layout leaves it unchanged. -/
theorem swap_bluegreen_idempotent_witness :
    swap_bluegreen bgInitEnv bgSwappedFs = Except.ok bgSwappedFs :=
  swap_bluegreen_idempotent bgInitEnv bgInitFs bgSwappedFs (by decide)

/-- C7: init_bluegreen is idempotent: running init again on the env and
    filesystem produced by a first init (same root and ports, no swap
    in between) yields exactly the same env and the same filesystem,
    and the second run performs no destructive filesystem action: every
    mkdir is a no-op and both symlinks are left as they are. -/
theorem init_bluegreen_idempotent (ea eb : BGEnv) (fsa fsb : FS)
    (h : init_bluegreen ea fsa = Except.ok (eb, fsb)) :
    init_bluegreen eb fsb = Except.ok (eb, fsb) := by
  cases hra : ea.bluegreen_root with
  | none => simp [init_bluegreen, hra] at h
  | some root =>
    cases hpa : ea.bluegreen_ports with
    | none => simp [init_bluegreen, hra, hpa] at h
    | some ports =>
      simp only [init_bluegreen, hra, hpa] at h
      rw [Except.ok.injEq, Prod.mk.injEq] at h
      obtain ⟨he, hf⟩ := h
      subst he
      subst hf
      simp only [init_bluegreen, hra, hpa]
      set bp := pathJoin root "blue" with hbp
      set gp := pathJoin root "green" with hgp
      set npa := pathJoin root "next" with hnpa
      set lpa := pathJoin root "live" with hlpa
      set D := ((((fsa.mkdirP root).mkdirP bp).mkdirP gp).mkdirP
        (bp ++ "/etc")).mkdirP (gp ++ "/etc") with hD
      set F := (D.ensureLink lpa bp).ensureLink npa gp with hF
      have cR : D.dirs.contains root = true :=
        FS.contains_mkdirP_mono _ (gp ++ "/etc") _
          (FS.contains_mkdirP_mono _ (bp ++ "/etc") _
            (FS.contains_mkdirP_mono _ gp _
              (FS.contains_mkdirP_mono _ bp _ (FS.contains_mkdirP_self fsa root))))
      have cB : D.dirs.contains bp = true :=
        FS.contains_mkdirP_mono _ (gp ++ "/etc") _
          (FS.contains_mkdirP_mono _ (bp ++ "/etc") _
            (FS.contains_mkdirP_mono _ gp _
              (FS.contains_mkdirP_self (fsa.mkdirP root) bp)))
      have cG : D.dirs.contains gp = true :=
        FS.contains_mkdirP_mono _ (gp ++ "/etc") _
          (FS.contains_mkdirP_mono _ (bp ++ "/etc") _
            (FS.contains_mkdirP_self ((fsa.mkdirP root).mkdirP bp) gp))
      have cBE : D.dirs.contains (bp ++ "/etc") = true :=
        FS.contains_mkdirP_mono _ (gp ++ "/etc") _
          (FS.contains_mkdirP_self (((fsa.mkdirP root).mkdirP bp).mkdirP gp) (bp ++ "/etc"))
      have cGE : D.dirs.contains (gp ++ "/etc") = true :=
        FS.contains_mkdirP_self ((((fsa.mkdirP root).mkdirP bp).mkdirP gp).mkdirP
          (bp ++ "/etc")) (gp ++ "/etc")
      have fR : F.dirs.contains root = true :=
        FS.ensureLink_contains _ npa gp _ (FS.ensureLink_contains _ lpa bp _ cR)
      have fB : F.dirs.contains bp = true :=
        FS.ensureLink_contains _ npa gp _ (FS.ensureLink_contains _ lpa bp _ cB)
      have fG : F.dirs.contains gp = true :=
        FS.ensureLink_contains _ npa gp _ (FS.ensureLink_contains _ lpa bp _ cG)
      have fBE : F.dirs.contains (bp ++ "/etc") = true :=
        FS.ensureLink_contains _ npa gp _ (FS.ensureLink_contains _ lpa bp _ cBE)
      have fGE : F.dirs.contains (gp ++ "/etc") = true :=
        FS.ensureLink_contains _ npa gp _ (FS.ensureLink_contains _ lpa bp _ cGE)
      have hexL : F.existsPath lpa = true :=
        FS.ensureLink_exists_mono _ npa gp _ (FS.ensureLink_exists_self D lpa bp)
      have hexN : F.existsPath npa = true :=
        FS.ensureLink_exists_self (D.ensureLink lpa bp) npa gp
      rw [FS.mkdirP_of_contains F root fR, FS.mkdirP_of_contains F bp fB,
        FS.mkdirP_of_contains F gp fG, FS.mkdirP_of_contains F (bp ++ "/etc") fBE,
        FS.mkdirP_of_contains F (gp ++ "/etc") fGE,
        FS.ensureLink_of_exists F lpa bp hexL, FS.ensureLink_of_exists F npa gp hexN]

/-- C7 witness: a second init on the concrete initialized example
    returns exactly the same env and filesystem. -/
theorem init_bluegreen_idempotent_witness :
    init_bluegreen bgInitEnv bgInitFs = Except.ok (bgInitEnv, bgInitFs) :=
  init_bluegreen_idempotent bgExample bgInitEnv fsEmpty bgInitFs (by decide)

/-!
String lemmas about path joining and basename, for the fresh init claim,
followed by the fresh-init and swap-pairing claims.
-/

theorem strAppend_right_ne {a b c : String} (h : b ≠ c) : a ++ b ≠ a ++ c := by
  intro he
  apply h
  have hd : a.data ++ b.data = a.data ++ c.data := by
    rw [← String.data_append, ← String.data_append, he]
  exact String.ext (List.append_inj_right hd rfl)

theorem strAppend_ne_self {a b : String} (h : b ≠ "") : a ++ b ≠ a := by
  intro he
  apply h
  have hd : a.data ++ b.data = a.data := by
    rw [← String.data_append, he]
  exact String.ext (List.append_right_eq_self.mp hd)

theorem strAppend_slash_ne_self (a b : String) : (a ++ "/") ++ b ≠ a := by
  intro he
  have hlen := congrArg String.length he
  rw [String.length_append, String.length_append] at hlen
  have h1 : ("/" : String).length = 1 := rfl
  rw [h1] at hlen
  omega

theorem pathJoin_ne_append (root x y s : String)
    (hx : startsWithSlash x = false) (hy : startsWithSlash y = false)
    (h : x ≠ y ++ s) : pathJoin root x ≠ pathJoin root y ++ s := by
  by_cases hr : root = ""
  · subst hr
    simpa [pathJoin, hx, hy] using h
  · have hr' : (root == "") = false := beq_eq_false_iff_ne.mpr hr
    by_cases hsl : endsWithSlash root = true
    · simp only [pathJoin, hx, hy, hr', hsl, Bool.false_eq_true, if_false, if_true]
      rw [String.append_assoc]
      exact strAppend_right_ne h
    · rw [Bool.not_eq_true] at hsl
      simp only [pathJoin, hx, hy, hr', hsl, Bool.false_eq_true, if_false]
      rw [String.append_assoc (root ++ "/")]
      exact strAppend_right_ne h

theorem pathJoin_ne (root x y : String)
    (hx : startsWithSlash x = false) (hy : startsWithSlash y = false)
    (h : x ≠ y) : pathJoin root x ≠ pathJoin root y := by
  have h2 := pathJoin_ne_append root x y "" hx hy (by rw [String.append_empty]; exact h)
  rw [String.append_empty] at h2
  exact h2

theorem pathJoin_ne_root (root x : String)
    (hx : startsWithSlash x = false) (hne : x ≠ "") : pathJoin root x ≠ root := by
  by_cases hr : root = ""
  · subst hr
    simpa [pathJoin, hx] using hne
  · have hr' : (root == "") = false := beq_eq_false_iff_ne.mpr hr
    by_cases hsl : endsWithSlash root = true
    · simp only [pathJoin, hx, hr', hsl, Bool.false_eq_true, if_false, if_true]
      exact strAppend_ne_self hne
    · rw [Bool.not_eq_true] at hsl
      simp only [pathJoin, hx, hr', hsl, Bool.false_eq_true, if_false]
      exact strAppend_slash_ne_self root x

theorem basenameAux_no_slash (l : List Char) (h : ∀ c ∈ l, (c == '/') = false) :
    basenameAux l = l := by
  induction l with
  | nil => rfl
  | cons c t ih =>
    have hc := h c (by simp)
    simp only [basenameAux, hc, Bool.false_eq_true, if_false]
    rw [ih (fun d hd => h d (by simp [hd]))]

theorem basenameAux_stop (l1 l2 : List Char) (h : ∀ c ∈ l1, (c == '/') = false) :
    basenameAux (l1 ++ '/' :: l2) = l1 := by
  induction l1 with
  | nil => simp [basenameAux]
  | cons c t ih =>
    have hc := h c (by simp)
    simp only [List.cons_append, basenameAux, hc, Bool.false_eq_true, if_false]
    exact congrArg (fun l => c :: l) (ih (fun d hd => h d (by simp [hd])))

theorem basename_no_slash (x : String)
    (hall : x.data.all (fun c => !(c == '/')) = true) : basename x = x := by
  unfold basename
  have h : ∀ c ∈ x.data.reverse, (c == '/') = false := by
    intro c hc
    rw [List.mem_reverse] at hc
    have hx := (List.all_eq_true.mp hall) c hc
    simpa using hx
  rw [basenameAux_no_slash _ h, List.reverse_reverse]

theorem basename_append_of_slash (a x : String) (ha : a.data.getLast? = some '/')
    (hall : x.data.all (fun c => !(c == '/')) = true) : basename (a ++ x) = x := by
  unfold basename
  rw [String.data_append, List.reverse_append]
  have hrev : ∃ tl, a.data.reverse = '/' :: tl := by
    rw [List.getLast?_eq_head?_reverse] at ha
    cases hr : a.data.reverse with
    | nil => rw [hr] at ha; cases ha
    | cons c tl =>
      rw [hr] at ha
      cases ha
      exact ⟨tl, rfl⟩
  rcases hrev with ⟨tl, htl⟩
  rw [htl]
  have h : ∀ c ∈ x.data.reverse, (c == '/') = false := by
    intro c hc
    rw [List.mem_reverse] at hc
    have hx := (List.all_eq_true.mp hall) c hc
    simpa using hx
  rw [basenameAux_stop _ _ h, List.reverse_reverse]

theorem basename_pathJoin (root x : String) (hx : startsWithSlash x = false)
    (hall : x.data.all (fun c => !(c == '/')) = true) :
    basename (pathJoin root x) = x := by
  unfold pathJoin
  rw [if_neg (by simp [hx])]
  by_cases hr : (root == "") = true
  · rw [if_pos hr]
    exact basename_no_slash x hall
  · rw [if_neg hr]
    by_cases hsl : endsWithSlash root = true
    · rw [if_pos hsl]
      refine basename_append_of_slash root x ?_ hall
      unfold endsWithSlash at hsl
      simpa using hsl
    · rw [if_neg hsl]
      refine basename_append_of_slash (root ++ "/") x ?_ hall
      rw [String.data_append]
      exact List.getLast?_concat _

/-- C5: a fresh init (neither the live nor the next symlink exists yet)
    creates the root, blue and green slot directories and the etc
    subdirectory under each slot, establishes live pointing at blue and
    next pointing at green, resolves the cached live and next targets
    accordingly, and derives the next color green with its port looked
    up in the supplied port mapping. -/
theorem init_bluegreen_fresh_layout (e : BGEnv) (fs : FS) (root : String)
    (ports : List (String × Nat))
    (hr : e.bluegreen_root = some root)
    (hp : e.bluegreen_ports = some ports)
    (hl : fs.existsPath (pathJoin root "live") = false)
    (hn : fs.existsPath (pathJoin root "next") = false) :
    ∃ eb fsb, init_bluegreen e fs = Except.ok (eb, fsb) ∧
      fsb.dirs.contains root = true ∧
      fsb.dirs.contains (pathJoin root "blue") = true ∧
      fsb.dirs.contains (pathJoin root "green") = true ∧
      fsb.dirs.contains (pathJoin root "blue" ++ "/etc") = true ∧
      fsb.dirs.contains (pathJoin root "green" ++ "/etc") = true ∧
      fsb.lookupLink (pathJoin root "live") = some (pathJoin root "blue") ∧
      fsb.lookupLink (pathJoin root "next") = some (pathJoin root "green") ∧
      eb.live_path = some (pathJoin root "blue") ∧
      eb.next_path = some (pathJoin root "green") ∧
      eb.color = some "green" ∧
      eb.bluegreen_port = portsGet ports "green" := by
  simp only [init_bluegreen, hr, hp]
  set bp := pathJoin root "blue" with hbp
  set gp := pathJoin root "green" with hgp
  set npa := pathJoin root "next" with hnpa
  set lpa := pathJoin root "live" with hlpa
  set D := ((((fs.mkdirP root).mkdirP bp).mkdirP gp).mkdirP
    (bp ++ "/etc")).mkdirP (gp ++ "/etc") with hD
  have d1 : lpa ≠ root := pathJoin_ne_root root "live" (by decide) (by decide)
  have d2 : lpa ≠ bp := pathJoin_ne root "live" "blue" (by decide) (by decide) (by decide)
  have d3 : lpa ≠ gp := pathJoin_ne root "live" "green" (by decide) (by decide) (by decide)
  have d4 : lpa ≠ bp ++ "/etc" :=
    pathJoin_ne_append root "live" "blue" "/etc" (by decide) (by decide) (by decide)
  have d5 : lpa ≠ gp ++ "/etc" :=
    pathJoin_ne_append root "live" "green" "/etc" (by decide) (by decide) (by decide)
  have n1 : npa ≠ root := pathJoin_ne_root root "next" (by decide) (by decide)
  have n2 : npa ≠ bp := pathJoin_ne root "next" "blue" (by decide) (by decide) (by decide)
  have n3 : npa ≠ gp := pathJoin_ne root "next" "green" (by decide) (by decide) (by decide)
  have n4 : npa ≠ bp ++ "/etc" :=
    pathJoin_ne_append root "next" "blue" "/etc" (by decide) (by decide) (by decide)
  have n5 : npa ≠ gp ++ "/etc" :=
    pathJoin_ne_append root "next" "green" "/etc" (by decide) (by decide) (by decide)
  have dn : npa ≠ lpa := pathJoin_ne root "next" "live" (by decide) (by decide) (by decide)
  have hl1 : D.existsPath lpa = false :=
    FS.existsPath_mkdirP_of_ne _ (gp ++ "/etc") _
      (FS.existsPath_mkdirP_of_ne _ (bp ++ "/etc") _
        (FS.existsPath_mkdirP_of_ne _ gp _
          (FS.existsPath_mkdirP_of_ne _ bp _
            (FS.existsPath_mkdirP_of_ne _ root _ hl d1) d2) d3) d4) d5
  have hn1 : D.existsPath npa = false :=
    FS.existsPath_mkdirP_of_ne _ (gp ++ "/etc") _
      (FS.existsPath_mkdirP_of_ne _ (bp ++ "/etc") _
        (FS.existsPath_mkdirP_of_ne _ gp _
          (FS.existsPath_mkdirP_of_ne _ bp _
            (FS.existsPath_mkdirP_of_ne _ root _ hn n1) n2) n3) n4) n5
  rw [FS.ensureLink_of_fresh D lpa bp hl1]
  have hn2 : (D.setLink lpa bp).existsPath npa = false :=
    FS.existsPath_setLink_of_ne D lpa bp npa hn1 dn
  rw [FS.ensureLink_of_fresh (D.setLink lpa bp) npa gp hn2]
  have hlpne : lpa ≠ npa := fun hh => dn hh.symm
  have lk2 : ((D.setLink lpa bp).setLink npa gp).lookupLink npa = some gp :=
    FS.lookupLink_setLink_self (D.setLink lpa bp) npa gp
  have lk1 : ((D.setLink lpa bp).setLink npa gp).lookupLink lpa = some bp := by
    rw [FS.lookupLink_setLink_ne (D.setLink lpa bp) npa gp lpa hlpne]
    exact FS.lookupLink_setLink_self D lpa bp
  have rd1 : ((D.setLink lpa bp).setLink npa gp).readlinkF npa = gp := by
    unfold FS.readlinkF
    rw [lk2]
    rfl
  have rd2 : ((D.setLink lpa bp).setLink npa gp).readlinkF lpa = bp := by
    unfold FS.readlinkF
    rw [lk1]
    rfl
  have hbase : basename gp = "green" := by
    rw [hgp]
    exact basename_pathJoin root "green" (by decide) (by decide)
  rw [rd1, rd2, hbase]
  refine ⟨_, _, rfl, ?_, ?_, ?_, ?_, ?_, lk1, lk2, rfl, rfl, rfl, rfl⟩
  · exact FS.contains_mkdirP_mono _ (gp ++ "/etc") _
      (FS.contains_mkdirP_mono _ (bp ++ "/etc") _
        (FS.contains_mkdirP_mono _ gp _
          (FS.contains_mkdirP_mono _ bp _ (FS.contains_mkdirP_self fs root))))
  · exact FS.contains_mkdirP_mono _ (gp ++ "/etc") _
      (FS.contains_mkdirP_mono _ (bp ++ "/etc") _
        (FS.contains_mkdirP_mono _ gp _
          (FS.contains_mkdirP_self (fs.mkdirP root) bp)))
  · exact FS.contains_mkdirP_mono _ (gp ++ "/etc") _
      (FS.contains_mkdirP_mono _ (bp ++ "/etc") _
        (FS.contains_mkdirP_self ((fs.mkdirP root).mkdirP bp) gp))
  · exact FS.contains_mkdirP_mono _ (gp ++ "/etc") _
      (FS.contains_mkdirP_self (((fs.mkdirP root).mkdirP bp).mkdirP gp) (bp ++ "/etc"))
  · exact FS.contains_mkdirP_self ((((fs.mkdirP root).mkdirP bp).mkdirP gp).mkdirP
      (bp ++ "/etc")) (gp ++ "/etc")

/-- C5 witness: the concrete spec scenario with root /srv/app and ports
    blue 8001, green 8002: fresh init gives live at blue, next at green,
    color green, port 8002. -/
theorem init_bluegreen_fresh_layout_witness :
    ∃ eb fsb, init_bluegreen bgExample fsEmpty = Except.ok (eb, fsb) ∧
      fsb.dirs.contains "/srv/app" = true ∧
      fsb.dirs.contains (pathJoin "/srv/app" "blue") = true ∧
      fsb.dirs.contains (pathJoin "/srv/app" "green") = true ∧
      fsb.dirs.contains (pathJoin "/srv/app" "blue" ++ "/etc") = true ∧
      fsb.dirs.contains (pathJoin "/srv/app" "green" ++ "/etc") = true ∧
      fsb.lookupLink (pathJoin "/srv/app" "live") = some (pathJoin "/srv/app" "blue") ∧
      fsb.lookupLink (pathJoin "/srv/app" "next") = some (pathJoin "/srv/app" "green") ∧
      eb.live_path = some (pathJoin "/srv/app" "blue") ∧
      eb.next_path = some (pathJoin "/srv/app" "green") ∧
      eb.color = some "green" ∧
      eb.bluegreen_port = portsGet [("blue", 8001), ("green", 8002)] "green" :=
  init_bluegreen_fresh_layout bgExample fsEmpty "/srv/app"
    [("blue", 8001), ("green", 8002)] rfl rfl (by decide) (by decide)

/-- C1 counterexample: on the fresh example root, init points live at
    blue; after one swap live is at green, and a second swap in the
    same process (no init in between) leaves live at green instead of
    restoring blue: the layout before the first swap and after the
    second swap differ, so swap is not its own inverse. -/
theorem swap_twice_not_inverse :
    bgScenario.map (fun r => r.2.1.lookupLink "/srv/app/live") =
      some (some "/srv/app/blue") ∧
    bgScenario.map (fun r => r.2.2.2.lookupLink "/srv/app/live") =
      some (some "/srv/app/green") ∧
    bgScenario.map (fun r => r.2.1.lookupLink "/srv/app/live") ≠
      bgScenario.map (fun r => r.2.2.2.lookupLink "/srv/app/live") :=
  ⟨by decide, by decide, by decide⟩

/-- C1 amended: after one init on a fresh root, the first swap moves
    live to green and next to blue, and a second swap with no init in
    between reissues the same repoints from the cached env state and
    leaves the layout exactly as after the first swap (live still at
    green, next still at blue) rather than restoring the original
    pairing; the pairing is only restored if init is run again before
    the second swap. -/
theorem swap_twice_stays_swapped (e : BGEnv) (fs : FS) (root : String)
    (ports : List (String × Nat))
    (hr : e.bluegreen_root = some root)
    (hp : e.bluegreen_ports = some ports)
    (hl : fs.existsPath (pathJoin root "live") = false)
    (hn : fs.existsPath (pathJoin root "next") = false) :
    ∃ eb fs1 fs2, init_bluegreen e fs = Except.ok (eb, fs1) ∧
      swap_bluegreen eb fs1 = Except.ok fs2 ∧
      swap_bluegreen eb fs2 = Except.ok fs2 ∧
      fs1.lookupLink (pathJoin root "live") = some (pathJoin root "blue") ∧
      fs2.lookupLink (pathJoin root "live") = some (pathJoin root "green") ∧
      fs2.lookupLink (pathJoin root "next") = some (pathJoin root "blue") := by
  simp only [init_bluegreen, hr, hp]
  set bp := pathJoin root "blue" with hbp
  set gp := pathJoin root "green" with hgp
  set npa := pathJoin root "next" with hnpa
  set lpa := pathJoin root "live" with hlpa
  set D := ((((fs.mkdirP root).mkdirP bp).mkdirP gp).mkdirP
    (bp ++ "/etc")).mkdirP (gp ++ "/etc") with hD
  have d1 : lpa ≠ root := pathJoin_ne_root root "live" (by decide) (by decide)
  have d2 : lpa ≠ bp := pathJoin_ne root "live" "blue" (by decide) (by decide) (by decide)
  have d3 : lpa ≠ gp := pathJoin_ne root "live" "green" (by decide) (by decide) (by decide)
  have d4 : lpa ≠ bp ++ "/etc" :=
    pathJoin_ne_append root "live" "blue" "/etc" (by decide) (by decide) (by decide)
  have d5 : lpa ≠ gp ++ "/etc" :=
    pathJoin_ne_append root "live" "green" "/etc" (by decide) (by decide) (by decide)
  have n1 : npa ≠ root := pathJoin_ne_root root "next" (by decide) (by decide)
  have n2 : npa ≠ bp := pathJoin_ne root "next" "blue" (by decide) (by decide) (by decide)
  have n3 : npa ≠ gp := pathJoin_ne root "next" "green" (by decide) (by decide) (by decide)
  have n4 : npa ≠ bp ++ "/etc" :=
    pathJoin_ne_append root "next" "blue" "/etc" (by decide) (by decide) (by decide)
  have n5 : npa ≠ gp ++ "/etc" :=
    pathJoin_ne_append root "next" "green" "/etc" (by decide) (by decide) (by decide)
  have dn : npa ≠ lpa := pathJoin_ne root "next" "live" (by decide) (by decide) (by decide)
  have hl1 : D.existsPath lpa = false :=
    FS.existsPath_mkdirP_of_ne _ (gp ++ "/etc") _
      (FS.existsPath_mkdirP_of_ne _ (bp ++ "/etc") _
        (FS.existsPath_mkdirP_of_ne _ gp _
          (FS.existsPath_mkdirP_of_ne _ bp _
            (FS.existsPath_mkdirP_of_ne _ root _ hl d1) d2) d3) d4) d5
  have hn1 : D.existsPath npa = false :=
    FS.existsPath_mkdirP_of_ne _ (gp ++ "/etc") _
      (FS.existsPath_mkdirP_of_ne _ (bp ++ "/etc") _
        (FS.existsPath_mkdirP_of_ne _ gp _
          (FS.existsPath_mkdirP_of_ne _ bp _
            (FS.existsPath_mkdirP_of_ne _ root _ hn n1) n2) n3) n4) n5
  rw [FS.ensureLink_of_fresh D lpa bp hl1]
  have hn2 : (D.setLink lpa bp).existsPath npa = false :=
    FS.existsPath_setLink_of_ne D lpa bp npa hn1 dn
  rw [FS.ensureLink_of_fresh (D.setLink lpa bp) npa gp hn2]
  set F := (D.setLink lpa bp).setLink npa gp with hF
  have hlpne : lpa ≠ npa := fun hh => dn hh.symm
  have lk2 : F.lookupLink npa = some gp :=
    FS.lookupLink_setLink_self (D.setLink lpa bp) npa gp
  have lk1 : F.lookupLink lpa = some bp := by
    rw [hF, FS.lookupLink_setLink_ne (D.setLink lpa bp) npa gp lpa hlpne]
    exact FS.lookupLink_setLink_self D lpa bp
  have rd1 : F.readlinkF npa = gp := by
    unfold FS.readlinkF
    rw [lk2]
    rfl
  have rd2 : F.readlinkF lpa = bp := by
    unfold FS.readlinkF
    rw [lk1]
    rfl
  rw [rd1, rd2]
  have lkA : ((F.setLink lpa gp).setLink npa bp).lookupLink lpa = some gp := by
    rw [FS.lookupLink_setLink_ne (F.setLink lpa gp) npa bp lpa hlpne]
    exact FS.lookupLink_setLink_self F lpa gp
  have lkB : ((F.setLink lpa gp).setLink npa bp).lookupLink npa = some bp :=
    FS.lookupLink_setLink_self (F.setLink lpa gp) npa bp
  exact ⟨_, _, _, rfl, rfl, congrArg Except.ok (FS.setLink_twice F lpa gp npa bp),
    lk1, lkA, lkB⟩

/-- C1 amended witness: the concrete spec scenario, where live is at
    blue after init and at green after each of the two swaps. -/
theorem swap_twice_stays_swapped_witness :
    ∃ eb fs1 fs2, init_bluegreen bgExample fsEmpty = Except.ok (eb, fs1) ∧
      swap_bluegreen eb fs1 = Except.ok fs2 ∧
      swap_bluegreen eb fs2 = Except.ok fs2 ∧
      fs1.lookupLink (pathJoin "/srv/app" "live") = some (pathJoin "/srv/app" "blue") ∧
      fs2.lookupLink (pathJoin "/srv/app" "live") = some (pathJoin "/srv/app" "green") ∧
      fs2.lookupLink (pathJoin "/srv/app" "next") = some (pathJoin "/srv/app" "blue") :=
  swap_twice_stays_swapped bgExample fsEmpty "/srv/app"
    [("blue", 8001), ("green", 8002)] rfl rfl (by decide) (by decide)
